import Mathlib

/-!
Verification of the `sciris` convenience library: a shallow embedding of
`sc_dataframe.py` (the `dataframe` subclass of `pandas.DataFrame`),
`sc_legacy.py` (`loadobj2or3`, `recursive_substitute`, `legacy_dataframe`)
and `sc_plotting.py` (`get_rows_cols`), together with theorems about the
claims of the specification.

Conventions of the embedding:
* a pandas `DataFrame` is a `Frame`: a list of string column labels, a list
  of index labels, and the values as a list of rows (each row a list of
  integer cell values; the cell type is irrelevant to the claims);
* Python code that can raise is modelled with `Option`/`Except` (`none` /
  `.error` = an exception propagates);
* `numpy` object arrays (used by `legacy_dataframe.make`) are modelled by a
  shape together with the flattened elements.
-/

namespace Sciris

/-- A pandas/sciris dataframe: string column labels, integer row index
labels, and the values stored row by row. -/
structure Frame where
  cols : List String
  idx : List Nat
  data : List (List Int)
deriving Repr, DecidableEq

/-- Number of rows (`len(df)` / `df.nrows`). -/
def Frame.nrows (f : Frame) : Nat := f.data.length

/-- Number of columns (`df.ncols = len(df.columns)`). -/
def Frame.ncols (f : Frame) : Nat := f.cols.length

/-- Well-formedness of a frame, maintained by pandas itself: every row has
exactly one cell per column label, and there is one index label per row. -/
def Frame.WF (f : Frame) : Prop :=
  (∀ r ∈ f.data, r.length = f.cols.length) ∧ f.idx.length = f.data.length

instance (f : Frame) : Decidable f.WF := by
  unfold Frame.WF; infer_instance

/-- A single getitem index: either a (row) position or a (column) string,
mirroring the `int`-vs-`str` distinction that `sc_dataframe.py` tests with
`scu.isstring` / `scu.isnumber`. -/
inductive Idx where
  | num : Nat → Idx
  | str : String → Idx
deriving Repr, DecidableEq

/-- Modelled from the spec: `scu.isstring` from the helper module
`sc_utils`, which is not part of this tree — whether an index is a string
(the flexible dispatch distinguishes string column labels from numeric row
positions). -/
def Idx.isstring : Idx → Bool
  | .num _ => false
  | .str _ => true

/-- A key accepted by `dataframe.__getitem__`: a single index, a 2-tuple of
indices, or a list of row positions. -/
inductive GKey where
  | one : Idx → GKey
  | pair : Idx → Idx → GKey
  | lst : List Nat → GKey
deriving Repr, DecidableEq

/-- A value returned by getitem: a single cell, a column (a pandas Series
of one value per row), a row (a Series of one value per column), or a
sub-frame (for a list of rows). -/
inductive GVal where
  | cell : Int → GVal
  | column : List Int → GVal
  | rowv : List Int → GVal
  | sub : Frame → GVal
deriving Repr, DecidableEq

/-- Column values of column number `j` (`df.iloc[:, j]`). -/
def Frame.colvals (f : Frame) (j : Nat) : List Int :=
  f.data.map (fun r => r.getD j 0)

/-- The pandas engine's own `DataFrame.__getitem__` (`super().__getitem__`,
also exposed unchanged as `dataframe.get`): a string key returns the matching
column or raises `KeyError`; a number or tuple key is looked up among the
(string) column labels and therefore raises `KeyError`; a plain list of
positions is not a column label either. -/
def pdGetitem (f : Frame) (k : GKey) : Option GVal :=
  match k with
  | .one (.str c) =>
      match f.cols.indexOf? c with
      | some j => some (.column (f.colvals j))
      | none => none
  | .one (.num _) => none
  | .pair _ _ => none
  | .lst _ => none

/-- Model of `df.iloc[key]` for the raw key (`super().iloc[key]`): a single number
selects a row by position; a pair of numbers selects a cell; a pair with a
string raises; a list of positions selects a sub-frame. -/
def pdIlocKey (f : Frame) (k : GKey) : Option GVal :=
  match k with
  | .one (.num i) => (f.data[i]?).map .rowv
  | .one (.str _) => none
  | .pair (.num i) (.num j) =>
      (f.data[i]?).bind fun r => (r[j]?).map .cell
  | .pair _ _ => none
  | .lst is =>
      if is.all (· < f.nrows) then
        some (.sub ⟨f.cols, is.map (fun i => f.idx.getD i 0),
                    is.map (fun i => f.data.getD i [])⟩)
      else none

/-- Model of `df.iloc[rowindex, colindex]` where the column part is already resolved
to a position (the `output = self.iloc[rowindex,colindex]` line of
`__getitem__`): the row part may be a position or a list of positions. -/
def pdIlocRC (f : Frame) (row : Idx) (j : Nat) : Option GVal :=
  match row with
  | .num i => (f.data[i]?).bind fun r => (r[j]?).map .cell
  | .str _ => none

/-- Model of `dataframe.__getitem__` from `sc_dataframe.py`: first try the pandas
engine (`super().__getitem__`); if that raises, try `super().iloc[key]`;
if that raises too, run the subclass's own key handling (string → column,
number/list → row(s), tuple → cell with string/number order swapped as
needed, via `self.cols.index`). -/
def getitem (f : Frame) (k : GKey) : Option GVal :=
  match pdGetitem f k with
  | some out => some out
  | none =>
    match pdIlocKey f k with
    | some out => some out
    | none =>
      match k with
      | .one (.str c) =>
          -- rowindex = slice(None); colindex = self.cols.index(key), or
          -- KeyNotFoundError if absent
          match f.cols.indexOf? c with
          | some j => some (.column (f.colvals j))
          | none => none
      | .one (.num i) => (f.data[i]?).map .rowv
      | .lst is =>
          if is.all (· < f.nrows) then
            some (.sub ⟨f.cols, is.map (fun i => f.idx.getD i 0),
                        is.map (fun i => f.data.getD i [])⟩)
          else none
      | .pair a b =>
          -- rowindex, colindex = key; swap if rowindex is a string and
          -- colindex is not; resolve a string colindex via cols.index
          let rc := if a.isstring && !b.isstring then (b, a) else (a, b)
          match rc.2 with
          | .str c =>
              match f.cols.indexOf? c with
              | some j => pdIlocRC f rc.1 j
              | none => none -- cols.index raises ValueError
          | .num j => pdIlocRC f rc.1 j

/-- A value passed to `__setitem__`: a scalar cell value or a full column of
values. -/
inductive SetVal where
  | s : Int → SetVal
  | l : List Int → SetVal
deriving Repr, DecidableEq

/-- A key accepted by `dataframe.__setitem__`: a single column label or a
2-tuple of indices (every such tuple passes the source's
`all(isinstance(k, (int, str, Ellipsis)) for k in key)` test, and is never
equal to one of the string column labels). -/
inductive SKey where
  | col : String → SKey
  | pairK : Idx → Idx → SKey
deriving Repr, DecidableEq

/-- Pandas `DataFrame.__setitem__` with a plain column label
(`super().__setitem__`): replace the column if the label exists, append a
new column otherwise; a list value must have one entry per row, a scalar is
broadcast. -/
def pdSetcol (f : Frame) (c : String) (v : SetVal) : Option Frame :=
  let vals : Option (List Int) :=
    match v with
    | .s x => some (List.replicate f.nrows x)
    | .l xs => if xs.length = f.nrows then some xs else none
  vals.map fun xs =>
    match f.cols.indexOf? c with
    | some j => ⟨f.cols, f.idx, (f.data.zip xs).map fun p => p.1.set j p.2⟩
    | none => ⟨f.cols ++ [c], f.idx, (f.data.zip xs).map fun p => p.1 ++ [p.2]⟩

/-- Model of `self.iloc[rowindex, colindex] = value` for a resolved column position:
writes one cell; raises if the row is a string or either position is out of
range, or if the value is not a scalar. -/
def ilocSetRC (f : Frame) (row : Idx) (j : Nat) (v : SetVal) : Option Frame :=
  match row, v with
  | .num i, .s x =>
      match f.data[i]? with
      | some r => if j < r.length then some ⟨f.cols, f.idx, f.data.set i (r.set j x)⟩ else none
      | none => none
  | _, _ => none

/-- Whether an index equals one of the column labels (`rowindex in cols`):
a number never equals a string label. -/
def Idx.inCols (a : Idx) (cols : List String) : Bool :=
  match a with
  | .num _ => false
  | .str s => cols.contains s

/-- Model of `dataframe.__setitem__` from `sc_dataframe.py`: keys that look like
`(0,'a')`, `('a',0)` or `(0,0)` skip the pandas engine (the
`raise NotImplementedError` guard fires for them) and go to the manual
element assignment, which swaps the tuple order if the first part is a
column label and the second is not, resolves a string column via
`cols.index`, and writes through `iloc`; every other key goes to regular
pandas. -/
def setitem (f : Frame) (k : SKey) (v : SetVal) : Option Frame :=
  match k with
  | .col c => pdSetcol f c v
  | .pairK a b =>
      let rc := if a.inCols f.cols && !(b.inCols f.cols) then (b, a) else (a, b)
      match rc.2 with
      | .str c =>
          match f.cols.indexOf? c with
          | some j => ilocSetRC f rc.1 j v
          | none => none -- colindex stays a missing string; iloc raises
      | .num j => ilocSetRC f rc.1 j v

/-- An argument to `dataframe.concat` / `_sanitize_df`: a single row, a 2-D
block of rows, an existing dataframe, or a dict of columns. -/
inductive CatArg where
  | rowa : List Int → CatArg
  | table : List (List Int) → CatArg
  | framea : Frame → CatArg
  | dicta : List (String × List Int) → CatArg
deriving Repr, DecidableEq

/-- Model of `self._constructor(data=rows, columns=columns)`: pandas requires every
row to have one cell per column label; the index defaults to `0..n-1`. -/
def mkdf (columns : List String) (rows : List (List Int)) : Option Frame :=
  if rows.all (·.length = columns.length) then
    some ⟨columns, List.range rows.length, rows⟩
  else none

/-- Model of `dataframe._sanitize_df` from `sc_dataframe.py`: a dataframe is passed
through; a dict contributes its keys as the columns and its values as the
data; a 1-D argument whose shape is exactly `(self.ncols,)` is wrapped into
a single row; everything else is handed to the dataframe constructor as-is
(pandas turns a 1-D list of another length into a single column, and only
if exactly one column label was supplied). -/
def sanitize_df (f : Frame) (arg : CatArg) (columns : List String) : Option Frame :=
  match arg with
  | .framea g => some g
  | .dicta d => mkdf (d.map (·.1)) (d.map (·.2))
  | .table rows => mkdf columns rows
  | .rowa r =>
      if r.length = f.ncols then mkdf columns [r]
      else if columns.length = 1 then
        some ⟨columns, List.range r.length, r.map (fun x => [x])⟩
      else none

/-- Model of `pd.concat(dfs)` for frames sharing the same column labels: rows and
index labels are concatenated in order. (Column alignment of heterogeneous
frames is outside the claims and modelled as an error.) -/
def pdconcat (dfs : List Frame) : Option Frame :=
  match dfs with
  | [] => none
  | f :: rest =>
      if rest.all (·.cols = f.cols) then
        some ⟨f.cols, (dfs.map (·.idx)).flatten, (dfs.map (·.data)).flatten⟩
      else none

/-- Model of `dataframe.replacedata`: optionally reset the index to `0..n-1`, then
either update `self` in place (`_update_inplace`) and return it, or leave
`self` untouched and return the new frame. The result is the pair
`(returned frame, state of self afterwards)`. -/
def replacedata (f newdf : Frame) (reset_index inplace : Bool) : Frame × Frame :=
  let newdf2 := if reset_index then ⟨newdf.cols, List.range newdf.nrows, newdf.data⟩ else newdf
  if inplace then (newdf2, newdf2) else (newdf2, f)

/-- Model of `dataframe.concat` from `sc_dataframe.py`: sanitize each argument into
a frame (using `self.columns` when no columns are supplied), concatenate
`self` with them via `pd.concat`, and hand the result to `replacedata`.
Returns `(returned frame, state of self afterwards)`. -/
def concatM (f : Frame) (arg : CatArg) (args : List CatArg)
    (columns : Option (List String)) (reset_index inplace : Bool) :
    Option (Frame × Frame) :=
  let cs := columns.getD f.cols
  do
    let dfs ← (arg :: args).mapM (fun a => sanitize_df f a cs)
    let newdf ← pdconcat (f :: dfs)
    return replacedata f newdf reset_index inplace

/-- Model of `dataframe.appendrow`: delegates directly to
`self.concat(row, reset_index=reset_index, inplace=inplace)`. -/
def appendrow (f : Frame) (row : CatArg) (reset_index inplace : Bool) :
    Option (Frame × Frame) :=
  concatM f row [] none reset_index inplace

/-- Model of `dataframe.append`: alias of `appendrow`, also delegating to
`self.concat(row, reset_index=reset_index, inplace=inplace)`. -/
def appendF (f : Frame) (row : CatArg) (reset_index inplace : Bool) :
    Option (Frame × Frame) :=
  concatM f row [] none reset_index inplace

/-- Model of `df.appendrow(row)` with its default arguments
(`reset_index=True, inplace=True`). -/
def appendrowD (f : Frame) (row : CatArg) : Option (Frame × Frame) :=
  appendrow f row true true

/-- Model of `df.append(row)` with its default arguments
(`reset_index=True, inplace=True`). -/
def appendD (f : Frame) (row : CatArg) : Option (Frame × Frame) :=
  appendF f row true true

/-- Model of `df.concat(data)` with its default arguments
(`columns=None, reset_index=True, inplace=False`). -/
def concatD (f : Frame) (arg : CatArg) : Option (Frame × Frame) :=
  concatM f arg [] none true false

/-- An arbitrary Python object compared against a dataframe: another sciris
dataframe, a plain pandas `DataFrame` (possibly with identical contents),
or anything else. -/
inductive PyObj where
  | scdf : Frame → PyObj
  | pddf : Frame → PyObj
  | other : PyObj
deriving Repr, DecidableEq

/-- Model of `self.values.shape`: the numpy shape of the values block, i.e. the
number of rows and the (common) row width. -/
def vshape (f : Frame) : Nat × Nat := (f.data.length, (f.data.head?.getD []).length)

/-- Model of `dataframe.__eq__` from `sc_dataframe.py`: `False` unless `other` is an
instance of the sciris dataframe class; then compare the value shapes, the
column labels (`np.all(self.columns == other.columns)`, which for string
label arrays is list equality), and the values elementwise (equivalent to
equality of the row lists once the shapes are known equal). -/
def dfEq (f : Frame) (o : PyObj) : Bool :=
  match o with
  | .scdf g =>
      if vshape f ≠ vshape g then false
      else if f.cols ≠ g.cols then false
      else if f.data ≠ g.data then false
      else true
  | _ => false

/-! ## `sc_legacy.py`: `loadobj2or3` -/

/-- Model of `loadobj2or3` from `sc_legacy.py`: first try to load the file as a
(Sciris-saved) Python 3 pickle with `scf.loadobj`; if that raises anything,
fall back to the Python 2 compatibility path `_loadobj2to3` and return its
result. The two loaders live in `sc_fileio.py` (not part of this tree), so
they are abstracted by their outcomes: `load3` is the outcome of
`scf.loadobj(filename, **kwargs)` and `load2` the outcome of
`_loadobj2to3(filename, filestring, recursionlimit)`. -/
def loadobj2or3 {α : Type} (load3 : Except String α) (load2 : Except String α) :
    Except String α :=
  match load3 with
  | .ok out => .ok out
  | .error _ => load2

/-! ## `sc_legacy.py`: `recursive_substitute`

A Python object as seen by `recursive_substitute`: a dict, an object with a
`__dict__`, a `datetime` instance, or an opaque atom (anything else).
Dicts and attribute dicts are field chains of (key, value) pairs; keys are
modelled as `Nat` (the latin1 decoding of byte keys does not affect the
recursion counter). The substitution side effects (`setattr`, the blobject
branch) and exceptions from looking up a key missing from `obj1` are not
modelled: `olook` is total, returning an atom for a missing key. -/

mutual
inductive PObj where
  | atom : PObj
  | dtime : PObj
  | dictO : PFields → PObj
  | objO : PFields → PObj
deriving Repr, DecidableEq

inductive PFields where
  | nil : PFields
  | cons : Nat → PObj → PFields → PFields
deriving Repr, DecidableEq
end

/-- Model of `obj1[k]` / `getattr(obj1, k)`: look up field `k` of an object. -/
def olook (o : PObj) (k : Nat) : PObj :=
  match o with
  | .dictO fs => go fs
  | .objO fs => go fs
  | _ => .atom
where go : PFields → PObj
  | .nil => .atom
  | .cons k' v rest => if k' = k then v else go rest

mutual
/-- The recursion-counter behaviour of `recursive_substitute(obj1, obj2,
track, recursionlevel, recursionlimit)` from `_loadobj2to3`: on entry the
counter is incremented; then for each item `(k, v)` of `obj2` (its dict
items, or its `__dict__` items), a `datetime` value is assigned with
`setattr` (no recursion), and a dict or `__dict__`-carrying value triggers
`recursionlevel = recursive_substitute(obj1[k], v, ..., recursionlevel,
recursionlimit)` — but only when the current counter is `≤ recursionlimit`;
otherwise a warning is printed and the call is skipped. The function
returns the final counter, which the caller threads into its subsequent
iterations. -/
def recSub (o1 o2 : PObj) (level limit : Nat) : Nat :=
  let lvl := level + 1
  match o2 with
  | .dictO fs => recFields o1 fs lvl limit
  | .objO fs => recFields o1 fs lvl limit
  | _ => lvl

/-- The item loop of `recursive_substitute`, threading the counter `c`
through the items in order. -/
def recFields (o1 : PObj) (fs : PFields) (c limit : Nat) : Nat :=
  match fs with
  | .nil => c
  | .cons k v rest =>
      match v with
      | .dtime => recFields o1 rest c limit
      | .atom => recFields o1 rest c limit
      | .dictO _ =>
          if c ≤ limit then recFields o1 rest (recSub (olook o1 k) v c limit) limit
          else recFields o1 rest c limit
      | .objO _ =>
          if c ≤ limit then recFields o1 rest (recSub (olook o1 k) v c limit) limit
          else recFields o1 rest c limit
end

/-- Model of `recursive_substitute` as called with an optional `recursionlimit`:
`None` is replaced by the default limit of `1000` at function entry. -/
def recursive_substitute (o1 o2 : PObj) (level : Nat) (rlimit : Option Nat) : Nat :=
  recSub o1 o2 level (rlimit.getD 1000)

/-- A flat dict of `n` entries, every value an empty dict: the object
`{0: {}, 1: {}, ..., n-1: {}}`. -/
def mkWide : Nat → PFields
  | 0 => .nil
  | n+1 => .cons n (PObj.dictO .nil) (mkWide n)

/-! ## `sc_legacy.py`: `legacy_dataframe`

A Python value handed to `legacy_dataframe.make`: an int, a string, a list
(also standing for tuples), or a dict from string keys to values. Lists
and dicts are their own sorts so that all recursions stay structural. -/

mutual
inductive PyVal where
  | i : Int → PyVal
  | s : String → PyVal
  | list : PyList → PyVal
  | dict : PyDict → PyVal
deriving Repr, DecidableEq

inductive PyList where
  | nil : PyList
  | cons : PyVal → PyList → PyList
deriving Repr, DecidableEq

inductive PyDict where
  | dnil : PyDict
  | dcons : String → PyVal → PyDict → PyDict
deriving Repr, DecidableEq
end

/-- Length of an embedded Python list. -/
def PyList.length : PyList → Nat
  | .nil => 0
  | .cons _ rest => rest.length + 1

/-- Convert an embedded Python list to a Lean list of its elements. -/
def PyList.toList : PyList → List PyVal
  | .nil => []
  | .cons x rest => x :: rest.toList

/-- Build an embedded Python list from a Lean list. -/
def PyList.ofList : List PyVal → PyList
  | [] => .nil
  | x :: rest => .cons x (PyList.ofList rest)

/-- Model of `list(d.keys())` of an embedded dict. -/
def PyDict.keys : PyDict → List PyVal
  | .dnil => []
  | .dcons k _ rest => .s k :: rest.keys

/-- Model of `list(d.values())` of an embedded dict. -/
def PyDict.values : PyDict → List PyVal
  | .dnil => []
  | .dcons _ v rest => v :: rest.values

mutual
/-- The shape `np.array(x, dtype=object).shape`: scalars (and dicts) are
0-d; a list whose elements all convert to a common shape `s` is an array of
shape `length :: s`; a ragged list becomes a 1-d array of objects. -/
def arrShape : PyVal → List Nat
  | .i _ => []
  | .s _ => []
  | .dict _ => []
  | .list xs =>
      match xs with
      | .nil => [0]
      | .cons x rest =>
          if allShape rest (arrShape x) then (rest.length + 1) :: arrShape x
          else [rest.length + 1]

/-- Whether every element of a list converts to the given array shape. -/
def allShape : PyList → List Nat → Bool
  | .nil, _ => true
  | .cons x rest, sh => decide (arrShape x = sh) && allShape rest sh
end

mutual
/-- The elements of `np.array(v, dtype=object)` in row-major order, for a
value of array shape `sh`. -/
def flatTo : List Nat → PyVal → List PyVal
  | [], v => [v]
  | _ :: sh, v =>
      match v with
      | .list xs => flatList sh xs
      | _ => [v]

/-- Row-major flattening of a list of values at element shape `sh`. -/
def flatList : List Nat → PyList → List PyVal
  | _, .nil => []
  | sh, .cons x rest => flatTo sh x ++ flatList sh rest
end

/-- A numpy object array: its shape and its elements in row-major order. -/
structure Arr where
  shape : List Nat
  flat : List PyVal
deriving Repr, DecidableEq

/-- Model of `arr.ndim`. -/
def Arr.ndim (a : Arr) : Nat := a.shape.length

/-- Model of `np.array(v, dtype=object)`. -/
def npArray (v : PyVal) : Arr := ⟨arrShape v, flatTo (arrShape v) v⟩

/-- Model of `np.zeros((r, c), dtype=object)`. -/
def zerosArr (r c : Nat) : Arr := ⟨[r, c], List.replicate (r * c) (.i 0)⟩

/-- Model of `np.reshape` to a new shape (row-major order is kept; only the
reshapes to `(len, 1)` and `(1, len)` from `make` are exercised). -/
def reshapeArr (a : Arr) (sh : List Nat) : Arr := ⟨sh, a.flat⟩

/-- Model of `arr.transpose()`: for a 2-d array, swap the axes and remap the
elements; in general numpy reverses the shape. -/
def transposeArr (a : Arr) : Arr :=
  match a.shape with
  | [r, c] =>
      ⟨[c, r], ((List.range c).map fun j =>
        (List.range r).map fun i => a.flat.getD (i * c + j) (.i 0)).flatten⟩
  | sh => ⟨sh.reverse, a.flat⟩

/-- Model of `len(v)` for an embedded value (`TypeError` on ints and dict-free
scalars; dicts never reach a `len` call in `make`). -/
def pyLen : PyVal → Except String Nat
  | .list xs => .ok xs.length
  | .s st => .ok st.length
  | _ => .error "TypeError: object has no len()"

/-- Model of `list(v)`: the elements of a list; anything else raises here (a string
would enumerate its characters, but `make` rejects strings before this
point via the listlike check). -/
def pyToList : PyVal → Except String (List PyVal)
  | .list xs => .ok xs.toList
  | _ => .error "TypeError: object is not iterable"

/-- Modelled from the spec: `scu.checktype(cols, 'listlike')` from the
missing module `sc_utils`; per the error message of `make` ("must be list,
tuple, or array") a value is listlike when it is a list (standing also for
tuples/arrays); ints, strings and dicts are not. -/
def checkListlike : PyVal → Bool
  | .list _ => true
  | _ => false

/-- The intermediate state of the `data` variable in `make`: Python
`None`, a not-yet-converted Python value, or an ndarray. -/
inductive DataV where
  | noneD : DataV
  | pv : PyVal → DataV
  | arr : Arr → DataV
deriving Repr, DecidableEq

/-- The stored state of a `legacy_dataframe`: `self.cols` (a Python list)
and `self.data` (a 2-d object ndarray). -/
structure LFrame where
  lcols : List PyVal
  ldata : Arr
deriving Repr, DecidableEq

/-- Lines 370–382 of `sc_legacy.py`: `data = np.array(data, dtype=object)`
has already happened; force the array to be 2-d, reshaping a 1-d array
into a column (if there is exactly one column) or a row (if its length
matches the number of columns), and raising otherwise. -/
def fixNdim (ncols : Nat) (a : Arr) : Except String Arr :=
  if a.ndim = 2 then .ok a
  else if a.ndim = 1 then
    if ncols = 1 then .ok (reshapeArr a [a.shape.getD 0 0, 1])
    else if a.shape.getD 0 0 = ncols then .ok (reshapeArr a [1, a.shape.getD 0 0])
    else .error "Dimension of data can only be 1 if there is 1 column"
  else .error "Dimension of data must be 1 or 2"

/-- Lines 383–389 of `sc_legacy.py`: accept the 2-d array if its second
axis matches the number of columns, transpose it if its first axis does,
and raise otherwise. -/
def fixShape (ncols : Nat) (a : Arr) : Except String Arr :=
  if a.shape.getD 1 0 = ncols then .ok a
  else if a.shape.getD 0 0 = ncols then .ok (transposeArr a)
  else .error "Number of columns does not match array shape"

/-- Lines 341–348 of `sc_legacy.py`: "if cols is None and data is None"
default to an empty frame preallocated with `nrows` rows of no columns;
"elif cols is None and data is not None" swap the two inputs. -/
def handleNone (cols0 data0 : Option PyVal) (nrows : Nat) : PyVal × DataV :=
  match cols0, data0 with
  | none, none => (.list .nil, .arr (zerosArr nrows 0))
  | none, some d => (d, .noneD)
  | some c, none => (c, .noneD)
  | some c, some d => (c, .pv d)

/-- Lines 354–361 of `sc_legacy.py`: "if isinstance(cols, dict)" use the
keys as the columns and the values as the data; "elif not
scu.checktype(cols, 'listlike')" raise. -/
def handleDict (c : PyVal) (d : DataV) : Except String (PyVal × DataV) :=
  match c with
  | .dict ds => .ok (.list (PyList.ofList ds.keys), .pv (.list (PyList.ofList ds.values)))
  | c => if checkListlike c then .ok (c, d)
         else .error "Inputs to dataframe must be list, tuple, or array"

/-- Lines 364–369 of `sc_legacy.py`: "if data is None", either treat the
first row of a 2-d `cols` (with more than one row) as the header and the
rest as the data, or default the data to an `nrows × len(cols)` zero
array. -/
def handleData (c : PyVal) (d : DataV) (nrows : Nat) : Except String (PyVal × DataV) :=
  match d with
  | .noneD =>
      let sh := arrShape c
      if sh.length = 2 ∧ 1 < sh.getD 0 0 then
        match c with
        | .list (.cons x rest) => .ok (x, .pv (.list rest))
        | c => .ok (c, d) -- unreachable: a 2-d value is a list with > 1 elements
      else do
        let n ← pyLen c
        .ok (c, .arr (zerosArr nrows n))
  | _ => .ok (c, d)

/-- Line 370 of `sc_legacy.py`: `data = np.array(data, dtype=object)`
(`np.array` of an ndarray keeps it as is). -/
def toArr (d : DataV) : Arr :=
  match d with
  | .pv v => npArray v
  | .arr a => a
  | .noneD => npArray (.list .nil) -- unreachable: data is never None here

/-- Lines 370–394 of `sc_legacy.py`: convert the data to an object
ndarray, force it 2-d, reconcile its shape with `len(cols)`, and store
`self.cols = list(cols)` and `self.data = data`. -/
def finalize (c : PyVal) (a0 : Arr) : Except String LFrame := do
  let ncols ← pyLen c
  let a1 ← fixNdim ncols a0
  let a2 ← fixShape ncols a1
  let colsStored ← pyToList c
  return ⟨colsStored, a2⟩

/-- Model of `legacy_dataframe.make(cols, data, nrows)` from `sc_legacy.py`, for
non-pandas input (the `isinstance(cols, pd.DataFrame)` early return is the
one branch outside this model): handle missing `cols`/`data`, unpack a
dict into keys and values, reject non-listlike `cols`, split a 2-d `cols`
into header and body or default the data to zeros, convert to an object
ndarray, force it 2-d, reconcile its shape with the number of columns, and
store `self.cols = list(cols)` and `self.data = data`. -/
def lmake (cols0 data0 : Option PyVal) (nrows0 : Option Nat) :
    Except String LFrame := do
  let nrows := nrows0.getD 0
  let cd1 := handleNone cols0 data0 nrows
  let cd2 ← handleDict cd1.1 cd1.2
  let cd3 ← handleData cd2.1 cd2.2 nrows
  finalize cd3.1 (toArr cd3.2)

/-- The `legacy_dataframe.ncols` property: compare `len(self.cols)` with
`self.data.shape[1]` (which itself raises `IndexError` on an array of
fewer than 2 dimensions), raising "Dataframe corrupted" on a mismatch. -/
def lncols (fr : LFrame) : Except String Nat :=
  match fr.ldata.shape.get? 1 with
  | none => .error "IndexError: tuple index out of range"
  | some n2 =>
      if fr.lcols.length ≠ n2 then .error "Dataframe corrupted"
      else .ok fr.lcols.length

/-- The `legacy_dataframe.nrows` property: `self.data.shape[0]`, with any
failure caught and turned into 0. -/
def lnrows (fr : LFrame) : Nat := fr.ldata.shape.getD 0 0

/-- The `legacy_dataframe.shape` property: `(self.nrows, self.ncols)`. -/
def lshape (fr : LFrame) : Except String (Nat × Nat) := do
  let nc ← lncols fr
  return (lnrows fr, nc)

/-- Convenience constructor for an embedded Python list value. -/
def plst (l : List PyVal) : PyVal := .list (PyList.ofList l)

/-! ## `sc_plotting.py`: `get_rows_cols` -/

/-- Model of `int(np.ceil(a / b))` for positive integers: the ceiling division. -/
def ceilDivN (a b : Nat) : Nat := (a + b - 1) / b

/-- Model of `int(np.ceil(np.sqrt n))`: the least `k` with `n ≤ k * k`, computed by
counting up (the fuel `n` always suffices since `n ≤ n * n`). -/
def ceilSqrt (n : Nat) : Nat := go n 0
where
  /-- Return the first `m ≥ k` with `n ≤ m * m`, trying at most `fuel`
  increments. -/
  go : Nat → Nat → Nat
    | 0, k => k
    | fuel + 1, k => if n ≤ k * k then k else go fuel (k + 1)

/-- Model of `get_rows_cols(n, nrows, ncols, ratio)` from `sc_plotting.py` with
`make=False` (the `make=True` branch only draws the subplots): if `nrows`
is given, `ncols = ceil(n/nrows)`; else if `ncols` is given, `nrows =
ceil(n/ncols)`; else `nrows = ceil(sqrt(n) * sqrt(ratio))` (written here as
`ceil(sqrt(n * ratio))`, the same real number for an integer ratio; the
source computes it in floating point) and `ncols = ceil(n/nrows)`. -/
def get_rows_cols (n : Nat) (nrows ncols : Option Nat) (ratio : Nat) : Nat × Nat :=
  match nrows with
  | some r => (r, ceilDivN n r)
  | none =>
    match ncols with
    | some c => (ceilDivN n c, c)
    | none =>
      let r := ceilSqrt (n * ratio)
      (r, ceilDivN n r)

/-- The dataframe `sc.dataframe(cols=['a','b'], data=[[1,2],[3,4]])`, used
as a concrete instance in witnesses. -/
def sampleFrame : Frame := ⟨["a", "b"], [0, 1], [[1, 2], [3, 4]]⟩

/-! ## Helper lemmas -/

theorem indexOf?_of_mem {c : String} {l : List String} (h : c ∈ l) :
    l.indexOf? c = some (l.indexOf c) := by
  cases hio : l.indexOf? c with
  | none =>
      exfalso
      have hne := List.indexOf?_eq_none_iff.mp hio c h
      simp at hne
  | some i =>
      have heq := List.indexOf_eq_indexOf? c l
      rw [hio] at heq
      rw [heq]

/-! ## Claim theorems -/

/-- Claim C1: `dataframe.__getitem__` delegates to the underlying pandas
engine first: whenever pandas `DataFrame.__getitem__` succeeds on a key
(returns a value rather than raising), the sciris `dataframe.__getitem__`
returns exactly that value; the subclass's own key handling is reached only
when the pandas engine rejects the key. -/
theorem getitem_delegates_pandas (f : Frame) (k : GKey) (v : GVal)
    (h : pdGetitem f k = some v) : getitem f k = some v := by
  unfold getitem
  rw [h]

/-- Witness for C1: on the frame with columns `a, b` and rows
`[1,2], [3,4]`, pandas getitem succeeds on the key `"a"` and the sciris
getitem returns the same column. -/
theorem getitem_delegates_pandas_witness :
    pdGetitem ⟨["a","b"], [0,1], [[1,2],[3,4]]⟩ (.one (.str "a")) = some (.column [1,3]) ∧
    getitem ⟨["a","b"], [0,1], [[1,2],[3,4]]⟩ (.one (.str "a")) = some (.column [1,3]) :=
  ⟨by decide, getitem_delegates_pandas _ _ _ (by decide)⟩

/-- Claim C5: `appendrow` and `append` are both exactly
`concat(row, reset_index=reset_index, inplace=inplace)`, and with their
default arguments both leave the dataframe in the state produced by
`concat(row, inplace=True)` (with the index reset), i.e. they default to
in-place modification. -/
theorem appendrow_append_are_inplace_concat (f : Frame) (row : CatArg)
    (ri ip : Bool) :
    appendrow f row ri ip = concatM f row [] none ri ip ∧
    appendF f row ri ip = concatM f row [] none ri ip ∧
    appendrowD f row = concatM f row [] none true true ∧
    appendD f row = concatM f row [] none true true :=
  ⟨rfl, rfl, rfl, rfl⟩

/-- Claim C6: `loadobj2or3` is a fallback chain: when the Python 3 load
(`scf.loadobj`) succeeds its result is returned unchanged, and when it
raises (any exception), the result of the Python 2 compatibility path
`_loadobj2to3` is returned. -/
theorem loadobj2or3_fallback_chain {α : Type} (v : α) (e : String)
    (load2 : Except String α) :
    loadobj2or3 (Except.ok v) load2 = Except.ok v ∧
    loadobj2or3 (Except.error e) load2 = load2 :=
  ⟨rfl, rfl⟩

/-- Claim C8: dataframe equality is total and type-strict: `df == other`
is `True` exactly when `other` is a sciris dataframe of the same value
shape, the same column labels, and elementwise equal values; for any
object that is not a sciris dataframe — including a plain pandas DataFrame
with identical contents — it is `False` (never an exception, `dfEq` being
a total function). -/
theorem dataframe_eq_iff (f : Frame) (o : PyObj) :
    dfEq f o = true ↔
      ∃ g, o = .scdf g ∧ vshape f = vshape g ∧ f.cols = g.cols ∧ f.data = g.data := by
  cases o with
  | scdf g =>
      simp only [dfEq]
      split_ifs with h1 h2 h3 <;> simp_all
  | pddf g => simp [dfEq]
  | other => simp [dfEq]

theorem ceilSqrt_go_spec (n : Nat) : ∀ (fuel k : Nat),
    n ≤ (k + fuel) * (k + fuel) →
    n ≤ ceilSqrt.go n fuel k * ceilSqrt.go n fuel k ∧
      ∀ m, k ≤ m → n ≤ m * m → ceilSqrt.go n fuel k ≤ m
  | 0, k, h => by
      refine ⟨by simpa [ceilSqrt.go] using h, fun m hm _ => ?_⟩
      simpa [ceilSqrt.go] using hm
  | fuel + 1, k, h => by
      by_cases hk : n ≤ k * k
      · refine ⟨by simp [ceilSqrt.go, hk], fun m hm _ => ?_⟩
        simpa [ceilSqrt.go, hk] using hm
      · have h' : n ≤ (k + 1 + fuel) * (k + 1 + fuel) := by
          have harith : k + (fuel + 1) = k + 1 + fuel := by omega
          rwa [harith] at h
        have ih := ceilSqrt_go_spec n fuel (k + 1) h'
        refine ⟨by simpa [ceilSqrt.go, hk] using ih.1, fun m hm hnm => ?_⟩
        have hm' : k + 1 ≤ m := by
          rcases Nat.eq_or_lt_of_le hm with heq | hlt
          · exact absurd (heq ▸ hnm) hk
          · omega
        simpa [ceilSqrt.go, hk] using ih.2 m hm' hnm

/-- Characterization: `ceilSqrt n` is the least `m` with `n ≤ m * m`,
i.e. `⌈√n⌉`. -/
theorem ceilSqrt_spec (n : Nat) :
    n ≤ ceilSqrt n * ceilSqrt n ∧ ∀ m, n ≤ m * m → ceilSqrt n ≤ m := by
  have hnn : n ≤ n * n := by nlinarith
  have h := ceilSqrt_go_spec n n 0 (by simpa using hnn)
  exact ⟨h.1, fun m hm => h.2 m (Nat.zero_le m) hm⟩

/-- Characterization: `ceilDivN n r` is `⌈n / r⌉` for `r > 0`: the least
`s` with `n ≤ r * s`. -/
theorem ceilDivN_spec (n r : Nat) (hr : 0 < r) :
    n ≤ r * ceilDivN n r ∧ ∀ s, n ≤ r * s → ceilDivN n r ≤ s := by
  constructor
  · have hdm := Nat.div_add_mod (n + r - 1) r
    have hml : (n + r - 1) % r < r := Nat.mod_lt _ hr
    unfold ceilDivN
    set q := (n + r - 1) / r with hq
    set m := (n + r - 1) % r with hm
    set X := r * q with hX
    omega
  · intro s hs
    unfold ceilDivN
    have hexp : (s + 1) * r = r * s + r := by ring
    have hlt : n + r - 1 < (s + 1) * r := by omega
    have hdiv := (Nat.div_lt_iff_lt_mul hr).mpr hlt
    omega

/-- Claim C7: for `n ≥ 1` with `nrows`/`ncols` unsupplied, `make=False`
and `ratio=1`, `get_rows_cols(n)` returns `(nrows, ncols)` where `nrows`
is `ceil(sqrt(n))` (the least `m` with `n ≤ m²`) and
`ncols = ceil(n / nrows)` (the least `s` with `n ≤ nrows * s`); hence
`nrows * ncols ≥ n` and `ncols ≤ nrows` (ties favour more rows). -/
theorem get_rows_cols_default (n : Nat) (hn : 1 ≤ n) :
    get_rows_cols n none none 1 = (ceilSqrt n, ceilDivN n (ceilSqrt n)) ∧
    (n ≤ ceilSqrt n * ceilSqrt n ∧ ∀ m, n ≤ m * m → ceilSqrt n ≤ m) ∧
    (n ≤ ceilSqrt n * ceilDivN n (ceilSqrt n) ∧
      ∀ s, n ≤ ceilSqrt n * s → ceilDivN n (ceilSqrt n) ≤ s) ∧
    ceilDivN n (ceilSqrt n) ≤ ceilSqrt n := by
  have hs := ceilSqrt_spec n
  have hpos : 0 < ceilSqrt n := by
    rcases Nat.eq_zero_or_pos (ceilSqrt n) with h0 | h
    · exfalso; have := hs.1; rw [h0] at this; omega
    · exact h
  have hd := ceilDivN_spec n (ceilSqrt n) hpos
  refine ⟨by simp [get_rows_cols], hs, hd, ?_⟩
  exact hd.2 (ceilSqrt n) hs.1

/-- Witness for C7: `sc.get_rows_cols(37)` returns `(7, 6)`. -/
theorem get_rows_cols_default_witness :
    1 ≤ 37 ∧
    (get_rows_cols 37 none none 1 = (ceilSqrt 37, ceilDivN 37 (ceilSqrt 37)) ∧
      (37 ≤ ceilSqrt 37 * ceilSqrt 37 ∧ ∀ m, 37 ≤ m * m → ceilSqrt 37 ≤ m) ∧
      (37 ≤ ceilSqrt 37 * ceilDivN 37 (ceilSqrt 37) ∧
        ∀ s, 37 ≤ ceilSqrt 37 * s → ceilDivN 37 (ceilSqrt 37) ≤ s) ∧
      ceilDivN 37 (ceilSqrt 37) ≤ ceilSqrt 37) :=
  ⟨by decide, get_rows_cols_default 37 (by decide)⟩

/-- Claim C2: flexible getitem is symmetric in tuple-key order: for a
valid row position `i` and a string column name `c` of the dataframe,
`df[(c, i)]` and `df[(i, c)]` return the same value, namely the element at
row position `i` of column `c`. -/
theorem getitem_tuple_symmetric (f : Frame) (i : Nat) (c : String)
    (hw : f.WF) (hi : i < f.nrows) (hc : c ∈ f.cols) :
    getitem f (.pair (.str c) (.num i)) = getitem f (.pair (.num i) (.str c)) ∧
    getitem f (.pair (.num i) (.str c)) =
      some (.cell ((f.data.getD i []).getD (f.cols.indexOf c) 0)) := by
  have hi' : i < f.data.length := hi
  have hj : f.cols.indexOf c < f.cols.length := List.indexOf_lt_length.mpr hc
  have hio := indexOf?_of_mem hc
  have hmem : f.data[i] ∈ f.data := List.getElem_mem hi'
  have hlen : (f.data[i]).length = f.cols.length := hw.1 _ hmem
  have hrow : f.data[i]? = some f.data[i] := List.getElem?_eq_getElem hi'
  have hjr : f.cols.indexOf c < (f.data[i]).length := by rw [hlen]; exact hj
  have hcell : (f.data[i])[f.cols.indexOf c]? = some ((f.data[i])[f.cols.indexOf c]) :=
    List.getElem?_eq_getElem hjr
  constructor
  · simp [getitem, pdGetitem, pdIlocKey, Idx.isstring, hio]
  · simp [getitem, pdGetitem, pdIlocKey, Idx.isstring, hio, pdIlocRC, hrow, hcell]

/-- Witness for C2: on `sc.dataframe(cols=['a','b'], data=[[1,2],[3,4]])`,
`df[('b',1)] = df[(1,'b')] = 4`. -/
theorem getitem_tuple_symmetric_witness :
    sampleFrame.WF ∧ 1 < sampleFrame.nrows ∧ "b" ∈ sampleFrame.cols ∧
    (getitem sampleFrame (.pair (.str "b") (.num 1)) =
        getitem sampleFrame (.pair (.num 1) (.str "b")) ∧
      getitem sampleFrame (.pair (.num 1) (.str "b")) =
        some (.cell ((sampleFrame.data.getD 1 []).getD (sampleFrame.cols.indexOf "b") 0))) :=
  ⟨by decide, by decide, by decide,
    getitem_tuple_symmetric _ 1 "b" (by decide) (by decide) (by decide)⟩

/-- Claim C3: element assignment through a 2-tuple key changes only the
addressed cell: after `df[(i, c)] = v` (equivalently `df[(c, i)] = v`) the
element at row `i` of column `c` equals `v`, and every other element, the
column labels, the index, and the shape (row count and every row width)
are unchanged. -/
theorem setitem_tuple_single_cell (f : Frame) (i : Nat) (c : String) (v : Int)
    (hw : f.WF) (hi : i < f.nrows) (hc : c ∈ f.cols) :
    ∃ f',
      setitem f (.pairK (.num i) (.str c)) (.s v) = some f' ∧
      setitem f (.pairK (.str c) (.num i)) (.s v) = some f' ∧
      f'.cols = f.cols ∧ f'.idx = f.idx ∧ f'.data.length = f.data.length ∧
      (∀ i', (f'.data.getD i' []).length = (f.data.getD i' []).length) ∧
      (f'.data.getD i []).getD (f.cols.indexOf c) 0 = v ∧
      (∀ i' j', ¬(i' = i ∧ j' = f.cols.indexOf c) →
        (f'.data.getD i' []).getD j' 0 = (f.data.getD i' []).getD j' 0) := by
  have hi' : i < f.data.length := hi
  set j := f.cols.indexOf c with hjdef
  have hj : j < f.cols.length := List.indexOf_lt_length.mpr hc
  have hio := indexOf?_of_mem hc
  have hmem : f.data[i] ∈ f.data := List.getElem_mem hi'
  have hlen : (f.data[i]).length = f.cols.length := hw.1 _ hmem
  have hrow : f.data[i]? = some f.data[i] := List.getElem?_eq_getElem hi'
  have hjr : j < (f.data[i]).length := by rw [hlen]; exact hj
  have hcontains : f.cols.contains c = true := List.elem_eq_true_of_mem hc
  refine ⟨⟨f.cols, f.idx, f.data.set i ((f.data[i]).set j v)⟩, ?_, ?_, rfl, rfl, ?_, ?_, ?_, ?_⟩
  · simp [setitem, Idx.inCols, ilocSetRC, hio, hrow, hjr]
  · simp [setitem, Idx.inCols, ilocSetRC, hio, hrow, hjr, hcontains, hc]
  · simp
  · intro i'
    by_cases h : i' = i
    · subst h
      simp [List.getElem?_set_self hi', List.getD_eq_getElem?_getD, hrow]
    · simp [List.getElem?_set_ne (fun hh => h hh.symm), List.getD_eq_getElem?_getD]
  · simp [List.getElem?_set_self hi', List.getD_eq_getElem?_getD,
      List.getElem?_set_self hjr]
  · intro i' j' hne
    by_cases h : i' = i
    · subst h
      have hj' : j' ≠ j := fun hh => hne ⟨rfl, hh⟩
      simp [List.getElem?_set_self hi', List.getD_eq_getElem?_getD, hrow,
        List.getElem?_set_ne (fun hh => hj' hh.symm)]
    · simp [List.getElem?_set_ne (fun hh => h hh.symm), List.getD_eq_getElem?_getD]

/-- Witness for C3: on `sc.dataframe(cols=['a','b'], data=[[1,2],[3,4]])`,
`df[(0,'b')] = 9` rewrites only the cell at row 0 of column `b`. -/
theorem setitem_tuple_single_cell_witness :
    sampleFrame.WF ∧ 0 < sampleFrame.nrows ∧ "b" ∈ sampleFrame.cols ∧
    (∃ f',
      setitem sampleFrame (.pairK (.num 0) (.str "b")) (.s 9) = some f' ∧
      setitem sampleFrame (.pairK (.str "b") (.num 0)) (.s 9) = some f' ∧
      f'.cols = sampleFrame.cols ∧ f'.idx = sampleFrame.idx ∧
      f'.data.length = sampleFrame.data.length ∧
      (∀ i', (f'.data.getD i' []).length = (sampleFrame.data.getD i' []).length) ∧
      (f'.data.getD 0 []).getD (sampleFrame.cols.indexOf "b") 0 = 9 ∧
      (∀ i' j', ¬(i' = 0 ∧ j' = sampleFrame.cols.indexOf "b") →
        (f'.data.getD i' []).getD j' 0 = (sampleFrame.data.getD i' []).getD j' 0)) :=
  ⟨by decide, by decide, by decide,
    setitem_tuple_single_cell _ 0 "b" 9 (by decide) (by decide) (by decide)⟩

/-- Claim C4: for a row `r` with one entry per column, `df.concat(r)` with
default arguments returns a new dataframe whose rows are `df`'s rows
followed by `r`, with the index reset to `0..n`, and leaves `df` itself
unchanged (`inplace` defaults to `False`). -/
theorem concat_default_appends_row (f : Frame) (r : List Int)
    (hr : r.length = f.ncols) :
    concatD f (.rowa r) =
      some (⟨f.cols, List.range (f.data.length + 1), f.data ++ [r]⟩, f) := by
  have hr' : r.length = f.cols.length := hr
  simp [concatD, concatM, sanitize_df, hr, mkdf, hr', pdconcat, replacedata,
    Frame.nrows, Frame.ncols, List.mapM.loop]

/-- Witness for C4: appending the row `[5,6]` to
`sc.dataframe(cols=['a','b'], data=[[1,2],[3,4]])`. -/
theorem concat_default_appends_row_witness :
    ([5, 6] : List Int).length = sampleFrame.ncols ∧
    concatD sampleFrame (.rowa [5, 6]) =
      some (⟨sampleFrame.cols, List.range (sampleFrame.data.length + 1),
        sampleFrame.data ++ [[5, 6]]⟩, sampleFrame) :=
  ⟨by decide, concat_default_appends_row _ [5, 6] (by decide)⟩

theorem PyList.toList_length : ∀ xs : PyList, xs.toList.length = xs.length
  | .nil => rfl
  | .cons x rest => by simp [PyList.toList, PyList.length, toList_length rest]

theorem pyToList_len {v : PyVal} {l : List PyVal} (h : pyToList v = .ok l) :
    pyLen v = .ok l.length := by
  cases v with
  | list xs =>
      simp only [pyToList, Except.ok.injEq] at h
      subst h
      simp [pyLen, PyList.toList_length]
  | i n => simp [pyToList] at h
  | s st => simp [pyToList] at h
  | dict d => simp [pyToList] at h

theorem fixNdim_ndim {nc : Nat} {a a1 : Arr} (h : fixNdim nc a = .ok a1) :
    a1.shape.length = 2 := by
  unfold fixNdim at h
  split_ifs at h with h1 h2 h3 h4
  · injection h with h'; subst h'; exact h1
  · injection h with h'; subst h'; rfl
  · injection h with h'; subst h'; rfl

theorem fixShape_ok {nc : Nat} {a a2 : Arr} (hnd : a.shape.length = 2)
    (h : fixShape nc a = .ok a2) :
    a2.shape.length = 2 ∧ a2.shape.getD 1 0 = nc := by
  obtain ⟨x, y, hxy⟩ := List.length_eq_two.mp hnd
  unfold fixShape at h
  rw [hxy] at h
  simp only [List.getD_eq_getElem?_getD] at h
  split_ifs at h with h1 h2
  · injection h with h'; subst h'
    refine ⟨by rw [hxy]; rfl, ?_⟩
    rw [hxy]
    simpa using h1
  · injection h with h'; subst h'
    simp only [transposeArr, hxy]
    refine ⟨rfl, ?_⟩
    simpa using h2

theorem lncols_of {fr : LFrame} (hnd : fr.ldata.shape.length = 2)
    (hsh : fr.ldata.shape.getD 1 0 = fr.lcols.length) :
    lncols fr = .ok fr.lcols.length ∧
      lshape fr = .ok (lnrows fr, fr.lcols.length) := by
  obtain ⟨x, y, hxy⟩ := List.length_eq_two.mp hnd
  have hy : y = fr.lcols.length := by simpa [hxy] using hsh
  constructor <;>
    simp [lncols, lshape, hxy, hy, bind, Except.bind, lnrows, pure, Except.pure]

theorem finalize_ok {c : PyVal} {a0 : Arr} {fr : LFrame}
    (h : finalize c a0 = .ok fr) :
    fr.ldata.shape.length = 2 ∧ fr.ldata.shape.getD 1 0 = fr.lcols.length := by
  unfold finalize at h
  simp only [bind, Except.bind] at h
  rcases hl : pyLen c with e | ncols <;> rw [hl] at h <;> dsimp only at h
  · simp at h
  rcases hn : fixNdim ncols a0 with e | a1 <;> rw [hn] at h <;> dsimp only at h
  · simp at h
  rcases hs : fixShape ncols a1 with e | a2 <;> rw [hs] at h <;> dsimp only at h
  · simp at h
  rcases ht : pyToList c with e | l <;> rw [ht] at h <;> dsimp only at h
  · simp at h
  simp only [pure, Except.pure, Except.ok.injEq] at h
  subst h
  have hnc : ncols = l.length := by
    have hlen := pyToList_len ht
    rw [hl] at hlen
    injection hlen
  have hfix := fixShape_ok (fixNdim_ndim hn) hs
  exact ⟨hfix.1, by simpa [hnc] using hfix.2⟩

/-- Claim C9: shape consistency is an invariant of the legacy dataframe:
whenever `legacy_dataframe.make` returns successfully on non-pandas input,
the stored array is 2-dimensional with `data.shape[1] == len(self.cols)`;
hence the `ncols` property never raises its "Dataframe corrupted"
exception on such an instance, and `shape` equals `(nrows, ncols)`. -/
theorem legacy_make_shape_invariant (cols0 data0 : Option PyVal)
    (n0 : Option Nat) (fr : LFrame) (h : lmake cols0 data0 n0 = .ok fr) :
    fr.ldata.ndim = 2 ∧ fr.ldata.shape.getD 1 0 = fr.lcols.length ∧
    lncols fr = .ok fr.lcols.length ∧
    lshape fr = .ok (lnrows fr, fr.lcols.length) := by
  unfold lmake at h
  simp only [bind, Except.bind] at h
  rcases h2 : handleDict (handleNone cols0 data0 (n0.getD 0)).1
      (handleNone cols0 data0 (n0.getD 0)).2 with e | cd2 <;>
    rw [h2] at h <;> dsimp only at h
  · simp at h
  rcases h3 : handleData cd2.1 cd2.2 (n0.getD 0) with e | cd3 <;>
    rw [h3] at h <;> dsimp only at h
  · simp at h
  have hf := finalize_ok h
  have hl := lncols_of hf.1 hf.2
  exact ⟨hf.1, hf.2, hl.1, hl.2⟩

/-- Witness for C9: `sc_legacy` dataframe construction from
`cols=['a','b'], data=[[1,2],[3,4]]` satisfies the shape invariant. -/
theorem legacy_make_shape_invariant_witness :
    lmake (some (plst [.s "a", .s "b"]))
        (some (plst [plst [.i 1, .i 2], plst [.i 3, .i 4]])) none =
      .ok ⟨[.s "a", .s "b"], ⟨[2, 2], [.i 1, .i 2, .i 3, .i 4]⟩⟩ ∧
    ((⟨[.s "a", .s "b"], ⟨[2, 2], [.i 1, .i 2, .i 3, .i 4]⟩⟩ : LFrame).ldata.ndim = 2 ∧
      (⟨[.s "a", .s "b"], ⟨[2, 2], [.i 1, .i 2, .i 3, .i 4]⟩⟩ : LFrame).ldata.shape.getD 1 0 =
        (⟨[.s "a", .s "b"], ⟨[2, 2], [.i 1, .i 2, .i 3, .i 4]⟩⟩ : LFrame).lcols.length ∧
      lncols ⟨[.s "a", .s "b"], ⟨[2, 2], [.i 1, .i 2, .i 3, .i 4]⟩⟩ =
        .ok (⟨[.s "a", .s "b"], ⟨[2, 2], [.i 1, .i 2, .i 3, .i 4]⟩⟩ : LFrame).lcols.length ∧
      lshape ⟨[.s "a", .s "b"], ⟨[2, 2], [.i 1, .i 2, .i 3, .i 4]⟩⟩ =
        .ok (lnrows ⟨[.s "a", .s "b"], ⟨[2, 2], [.i 1, .i 2, .i 3, .i 4]⟩⟩,
          (⟨[.s "a", .s "b"], ⟨[2, 2], [.i 1, .i 2, .i 3, .i 4]⟩⟩ : LFrame).lcols.length)) :=
  ⟨by rfl,
    legacy_make_shape_invariant (some (plst [.s "a", .s "b"]))
      (some (plst [plst [.i 1, .i 2], plst [.i 3, .i 4]])) none
      ⟨[.s "a", .s "b"], ⟨[2, 2], [.i 1, .i 2, .i 3, .i 4]⟩⟩ (by rfl)⟩

mutual
theorem recSub_le : ∀ (o1 o2 : PObj) (level limit : Nat), level ≤ limit →
    recSub o1 o2 level limit ≤ limit + 1
  | _, .atom, _, _, h => by simp [recSub]; omega
  | _, .dtime, _, _, h => by simp [recSub]; omega
  | o1, .dictO fs, level, limit, h => by
      simpa [recSub] using recFields_le o1 fs (level + 1) limit (by omega)
  | o1, .objO fs, level, limit, h => by
      simpa [recSub] using recFields_le o1 fs (level + 1) limit (by omega)

theorem recFields_le : ∀ (o1 : PObj) (fs : PFields) (c limit : Nat),
    c ≤ limit + 1 → recFields o1 fs c limit ≤ limit + 1
  | _, .nil, _, _, h => by simpa [recFields] using h
  | o1, .cons _ .atom rest, c, limit, h => by
      simpa [recFields] using recFields_le o1 rest c limit h
  | o1, .cons _ .dtime rest, c, limit, h => by
      simpa [recFields] using recFields_le o1 rest c limit h
  | o1, .cons k (.dictO fs2) rest, c, limit, h => by
      by_cases hc : c ≤ limit
      · have h1 := recSub_le (olook o1 k) (.dictO fs2) c limit hc
        simpa [recFields, hc] using
          recFields_le o1 rest (recSub (olook o1 k) (.dictO fs2) c limit) limit h1
      · simpa [recFields, hc] using recFields_le o1 rest c limit h
  | o1, .cons k (.objO fs2) rest, c, limit, h => by
      by_cases hc : c ≤ limit
      · have h1 := recSub_le (olook o1 k) (.objO fs2) c limit hc
        simpa [recFields, hc] using
          recFields_le o1 rest (recSub (olook o1 k) (.objO fs2) c limit) limit h1
      · simpa [recFields, hc] using recFields_le o1 rest c limit h
end

set_option maxRecDepth 1000000 in
/-- Counterexample to claim C10: on the pair of objects
`obj1 = obj2 = {0: {}, 1: {}, ..., 1000: {}}` (a dict of 1001 empty-dict
values) with `recursionlimit=None`, the recursion counter of
`recursive_substitute` reaches 1001, exceeding the default limit of 1000:
the guard `recursionlevel <= recursionlimit` still admits a call when the
counter equals the limit, and that call increments the counter past it. -/
theorem recursive_substitute_exceeds_default_limit :
    1000 < recursive_substitute (.dictO (mkWide 1001)) (.dictO (mkWide 1001)) 0 none := by
  decide

/-- Claim C10 (amended): with `recursionlimit=None` (default limit 1000),
the recursion counter of `recursive_substitute` never exceeds 1001 =
limit + 1: a recursive call is made only while the counter is at most the
limit, each call increments it once on entry, and once it passes the limit
every deeper substitution is skipped with a printed warning instead of
recursing or raising, so the function always returns (it is total in this
model). -/
theorem recursive_substitute_counter_bounded (o1 o2 : PObj) :
    recursive_substitute o1 o2 0 none ≤ 1001 :=
  recSub_le o1 o2 0 1000 (by omega)

end Sciris
